import Mathlib

/-!
Verification development for the SiteBuilder page build pipeline
(src/lib/SiteBuilder.ts).

The embedding is a shallow one:

* Frontmatter values (`Record<string, any>` in the source) are modelled by
  `JValue`; arrays are restricted to string arrays because the frontmatter
  schema only ever admits `tags: array(string)`.
* A raw content file is modelled by its gray-matter split
  `(frontmatter, body)`: gray-matter is a pure function of the file bytes,
  so byte-identical files have identical splits, and the md5 content hash
  used as the cache key is modelled by the split itself.
* The eta template engine and markdown-it are external collaborators; they
  appear as function fields of `Env` (`render` may fail, modelling a thrown
  template error).
* Plugin hook dispatch is recorded as an event in the build trace; hook
  bodies are external and not modelled.
-/

namespace SiteBuilderModel

/-- Dynamic frontmatter/data value (`any` in the source). Arrays are
restricted to string arrays, the only array shape the schema admits. -/
inductive JValue where
  | str (s : String)
  | bool (b : Bool)
  | num (n : Int)
  | arr (xs : List String)
  | null
deriving DecidableEq, Repr

/-- A parsed frontmatter object: keys in insertion order. -/
abbrev Frontmatter := List (String × JValue)

/-- Association-list lookup, modelling JS object / Map `get`. -/
def mapGet {κ α : Type} [DecidableEq κ] : List (κ × α) → κ → Option α
  | [], _ => none
  | (k, v) :: rest, key => if k = key then some v else mapGet rest key

/-- Association-list update, modelling JS object / Map `set`: replace the
value in place when the key exists, otherwise append. -/
def mapSet {κ α : Type} [DecidableEq κ] : List (κ × α) → κ → α → List (κ × α)
  | [], key, v => [(key, v)]
  | (k, w) :: rest, key, v =>
      if k = key then (k, v) :: rest else (k, w) :: mapSet rest key v

/-- JS truthiness of a frontmatter value. -/
def jvTruthy : JValue → Bool
  | .str s => !s.isEmpty
  | .bool b => b
  | .num n => n != 0
  | .arr _ => true
  | .null => false

/-- JS truthiness of an optional field (absent fields are falsy). -/
def jvTruthyOpt : Option JValue → Bool
  | none => false
  | some v => jvTruthy v

/-- The JS truthiness guard on a field, as in `if (data.permalink)`,
`data.alias ? ... : null` and `frontmatter.layout || ...`: the value when
it is present and truthy (whatever its type), `none` otherwise. -/
def truthyField (fm : Frontmatter) (key : String) : Option JValue :=
  match mapGet fm key with
  | some v => if jvTruthy v then some v else none
  | none => none

/-- JS `String(value)`, as performed by property access
`this.includes[layoutName]` on a non-string key: strings unchanged,
booleans `true`/`false`, numbers in decimal, arrays comma-joined. -/
def jvToKeyString : JValue → String
  | .str s => s
  | .bool b => if b then "true" else "false"
  | .num n => toString n
  | .arr xs => String.intercalate "," xs
  | .null => "null"

/-- `yup` schema check for one optional field. -/
def optOk (p : JValue → Bool) (v : Option JValue) : Bool :=
  match v with
  | none => true
  | some x => p x

def isStrVal : JValue → Bool
  | .str _ => true
  | _ => false

def isBoolVal : JValue → Bool
  | .bool _ => true
  | _ => false

def isStrArrVal : JValue → Bool
  | .arr _ => true
  | _ => false

/-- The fixed frontmatter schema (`frontmatterSchema`, SiteBuilder.ts
lines 45-52): `title`, `permalink`, `alias` optional strings; `date`
an optional date (modelled as a string); `draft` an optional boolean;
`tags` an optional array of strings. Unknown keys are ignored. -/
def validateFrontmatter (fm : Frontmatter) : Bool :=
  optOk isStrVal (mapGet fm "title") &&
  optOk isStrVal (mapGet fm "date") &&
  optOk isBoolVal (mapGet fm "draft") &&
  optOk isStrVal (mapGet fm "permalink") &&
  optOk isStrVal (mapGet fm "alias") &&
  optOk isStrArrVal (mapGet fm "tags")

/-- The gray-matter split of a raw content file: frontmatter and body.
Stands for the raw bytes; the md5 hash key is modelled by this value. -/
abbrev Raw := Frontmatter × String

/-- A discovered site file: its path and the content at that path. -/
structure SiteFile where
  path : String
  raw : Raw
deriving DecidableEq, Repr

/-- A collection entry `{frontmatter, content, filePath}`
(SiteBuilder.ts line 177). -/
structure CollectionEntry where
  frontmatter : Frontmatter
  content : String
  filePath : String
deriving DecidableEq, Repr

/-- A loaded include: `{frontmatter, templateContent}`
(SiteBuilder.ts line 134). -/
structure Include where
  frontmatter : Frontmatter
  templateContent : String
deriving DecidableEq, Repr

/-- A fully built page (interface `Page`, SiteBuilder.ts lines 17-26). -/
structure Page where
  filePath : String
  frontmatter : Frontmatter
  content : String
  layout : Option Include
  output : String
  permalinkClean : String
  permalinkFilesystem : String
  permalinkAlias : Option String
deriving DecidableEq, Repr

/-- The shared mutable builder state: `collections`, `data`, `includes`,
`cache` (SiteBuilder.ts lines 39-43). -/
structure State where
  collections : List (String × List CollectionEntry)
  data : Frontmatter
  includes : List (String × Include)
  cache : List (Raw × Page)
deriving DecidableEq, Repr

/-- The rendering context (interface `ContentData`): the spread
frontmatter fields plus `includes`, `collections`, `data` and the
optional injected `content` string. -/
structure ContentData where
  fields : Frontmatter
  includes : List (String × Include)
  collections : List (String × List CollectionEntry)
  data : Frontmatter
  content : Option String

/-- External collaborators: the eta template engine (`renderString`, which
may throw), markdown-it (`render`), and the `BUILD_DRAFTS` environment
switch read by `isDraftBuild`. -/
structure Env where
  render : String → ContentData → Except String String
  renderMarkdown : String → String
  draftBuild : Bool

/-- JS object spread `{...a, ...b}`: keys of `a` in order with values
overridden by `b`, followed by the keys only in `b`. -/
def spreadMerge (a b : Frontmatter) : Frontmatter :=
  a.map (fun kv =>
    match mapGet b kv.fst with
    | some v => (kv.fst, v)
    | none => kv) ++
  b.filter (fun kv => (mapGet a kv.fst).isNone)

/-- Characters of the last path component (`path.basename`). -/
def lastComponentAux : List Char → List Char → List Char
  | [], acc => acc.reverse
  | c :: rest, acc =>
      if c = '/' then lastComponentAux rest [] else lastComponentAux rest (c :: acc)

def lastComponent (p : String) : List Char :=
  lastComponentAux p.toList []

/-- Scanning a reversed basename, split at the first `.` found: returns
`(charsAfterTheDotReversed, charsBeforeTheDotReversed)`. -/
def findDotRev : List Char → Option (List Char × List Char)
  | [] => none
  | c :: rest =>
      if c = '.' then some ([], rest)
      else (findDotRev rest).map (fun pr => (c :: pr.fst, pr.snd))

/-- `path.extname`: the extension of the last path component including the
dot, empty when there is no dot or the only dot starts a hidden file. -/
def extname (p : String) : String :=
  let b := lastComponent p
  match findDotRev b.reverse with
  | some (pre, post) => if post.isEmpty then "" else String.mk ('.' :: pre.reverse)
  | none => ""

/-- `path.basename(relativePath, path.extname(relativePath))`: the file
name with the extension stripped (SiteBuilder.ts line 351). The relative
path has the same final component as the absolute one. -/
def basenameNoExt (p : String) : String :=
  let b := lastComponent p
  match findDotRev b.reverse with
  | some (_pre, post) => if post.isEmpty then String.mk b else String.mk post.reverse
  | none => String.mk b

/-- Whether a string ends with the character `c`. -/
def lastCharIs (c : Char) (s : String) : Bool :=
  match s.toList.getLast? with
  | some x => x = c
  | none => false

/-- The three permalink outputs of a page. -/
structure PermalinkOut where
  permalinkClean : String
  permalinkFilesystem : String
  permalinkAlias : Option String
deriving DecidableEq, Repr

/-- `this.eta.renderString(value, context)` applied to a frontmatter
value: eta only accepts a string template, so a truthy non-string value
(reachable through unvalidated layout frontmatter in the merged context)
makes it throw. -/
def renderValue (env : Env) (v : JValue) (data : ContentData) : Except String String :=
  match v with
  | JValue.str s => env.render s data
  | _ => Except.error "renderString: template is not a string"

/-- Rendering of `data.alias` (SiteBuilder.ts line 356): when the field is
truthy, render it as a template against a shallow copy of the context; a
truthy non-string value makes the template engine throw. -/
def renderAlias (env : Env) (data : ContentData) : Except String (Option String) :=
  match truthyField data.fields "alias" with
  | some v => (renderValue env v data).map some
  | none => Except.ok none

/-- `generatePermalinkOutputs` (SiteBuilder.ts lines 344-365): defaults
`clean = "/"`, `filesystem = "/<name>.html"`, `alias = null`; when
`data.permalink` is truthy, `clean` is the rendered permalink and
`filesystem` is `clean` with a trailing slash ensured plus `index.html`;
when `data.alias` is truthy, `alias` is the rendered alias. A thrown
template error (a failed render, or a truthy non-string value handed to
the template engine) propagates. -/
def generatePermalinkOutputs (env : Env) (filePath : String) (data : ContentData) :
    Except String PermalinkOut :=
  let fileName := basenameNoExt filePath
  match renderAlias env data with
  | Except.error e => Except.error e
  | Except.ok al =>
    match truthyField data.fields "permalink" with
    | some v =>
        match renderValue env v data with
        | Except.error e => Except.error e
        | Except.ok clean =>
            Except.ok
              { permalinkClean := clean
                permalinkFilesystem :=
                  (if lastCharIs '/' clean then clean else clean ++ "/") ++ "index.html"
                permalinkAlias := al }
    | none =>
        Except.ok
          { permalinkClean := "/"
            permalinkFilesystem := "/" ++ fileName ++ ".html"
            permalinkAlias := al }

/-- One observable step of a page build: a plugin hook dispatch, the
frontmatter validation, or a rendering step. -/
inductive BuildEvent where
  | hookEv (name : String)
  | validationEv
  | renderContentEv
  | renderLayoutEv
  | permalinkEv
deriving DecidableEq, Repr

/-- The tail of `buildPage` shared by the layout and no-layout paths
(SiteBuilder.ts lines 301-319): generate permalinks, fire `afterBuildPage`
and store the completed page in the cache under the content hash. -/
def finishPage (env : Env) (st : State) (f : SiteFile) (fm : Frontmatter)
    (body : String) (layout : Option Include) (output : String)
    (cd : ContentData) (evs : List BuildEvent) :
    Except String (Option Page) × List BuildEvent × State :=
  match generatePermalinkOutputs env f.path cd with
  | Except.error e => (Except.error e, evs ++ [BuildEvent.permalinkEv], st)
  | Except.ok pl =>
      let page : Page :=
        { filePath := f.path
          frontmatter := fm
          content := body
          layout := layout
          output := output
          permalinkClean := pl.permalinkClean
          permalinkFilesystem := pl.permalinkFilesystem
          permalinkAlias := pl.permalinkAlias }
      (Except.ok (some page),
       evs ++ [BuildEvent.permalinkEv, BuildEvent.hookEv "afterBuildPage"],
       { st with cache := mapSet st.cache f.raw page })

/-- `buildPage` (SiteBuilder.ts lines 211-319). Returns the outcome (a
page, `null` for a skip, or a thrown error), the trace of observable
events, and the builder state after the call. On a cache hit the cached
page is returned immediately with an empty trace. The only state mutation
is the final cache store. -/
def buildPage (env : Env) (st : State) (f : SiteFile) :
    Except String (Option Page) × List BuildEvent × State :=
  match mapGet st.cache f.raw with
  | some cached => (Except.ok (some cached), [], st)
  | none =>
    let fm := f.raw.fst
    let body := f.raw.snd
    let ev0 := [BuildEvent.hookEv "beforeBuildPage", BuildEvent.validationEv]
    if validateFrontmatter fm then
      if jvTruthyOpt (mapGet fm "draft") && !env.draftBuild then
        (Except.ok none, ev0, st)
      else
        let cd1 : ContentData :=
          { fields := fm
            includes := st.includes
            collections := st.collections
            data := st.data
            content := none }
        let ev1 := ev0 ++ [BuildEvent.hookEv "beforeRenderContent", BuildEvent.renderContentEv]
        match env.render body cd1 with
        | Except.error e => (Except.error e, ev1, st)
        | Except.ok out1 =>
          let ev2 := ev1 ++ [BuildEvent.hookEv "afterRenderContent"]
          let out2 := if extname f.path = ".md" then env.renderMarkdown out1 else out1
          let layoutName :=
            match truthyField fm "layout" with
            | some v => some v
            | none => truthyField st.data "layout"
          match layoutName.bind (fun v => mapGet st.includes (jvToKeyString v)) with
          | some inc =>
              let merged := spreadMerge inc.frontmatter fm
              let cd2 : ContentData :=
                { fields := merged
                  includes := st.includes
                  collections := st.collections
                  data := st.data
                  content := some out2 }
              let ev3 := ev2 ++ [BuildEvent.hookEv "beforeRenderLayout", BuildEvent.renderLayoutEv]
              match env.render inc.templateContent cd2 with
              | Except.error e => (Except.error e, ev3, st)
              | Except.ok out3 =>
                  finishPage env st f fm body (some inc) out3 cd2
                    (ev3 ++ [BuildEvent.hookEv "afterRenderLayout"])
          | none => finishPage env st f fm body none out2 cd1 ev2
    else (Except.ok none, ev0, st)

/-- The denormalized `outputPath` / `aliasPath` fields written onto the
frontmatter object by `processFile` (SiteBuilder.ts lines 182-188). The
frontmatter object is shared by reference with the collection entries
pushed just before, so the entries carry these fields. -/
def fmWithPaths (fm : Frontmatter) : Frontmatter :=
  let fm1 :=
    match mapGet fm "permalink" with
    | some v => if jvTruthy v then mapSet fm "outputPath" v else fm
    | none => fm
  match mapGet fm1 "alias" with
  | some v => if jvTruthy v then mapSet fm1 "aliasPath" v else fm1
  | none => fm1

/-- Append an entry to the collection of one tag, creating the collection
when absent (SiteBuilder.ts lines 176-177). -/
def pushCollection (cols : List (String × List CollectionEntry)) (tag : String)
    (e : CollectionEntry) : List (String × List CollectionEntry) :=
  match mapGet cols tag with
  | some entries => mapSet cols tag (entries ++ [e])
  | none => cols ++ [(tag, [e])]

/-- The collection entry contributed by a file. -/
def mkEntry (f : SiteFile) : CollectionEntry :=
  { frontmatter := fmWithPaths f.raw.fst
    content := f.raw.snd
    filePath := f.path }

/-- The tags list of a frontmatter object (empty when absent). -/
def tagsOf (fm : Frontmatter) : List String :=
  match mapGet fm "tags" with
  | some (JValue.arr ts) => ts
  | _ => []

/-- `processFile` (SiteBuilder.ts lines 160-189): parse, validate (on
failure return without indexing), then push a `{frontmatter, content,
filePath}` entry onto the collection of every tag. The draft flag is not
consulted here. -/
def processFile (st : State) (f : SiteFile) : State :=
  let fm := f.raw.fst
  let body := f.raw.snd
  if validateFrontmatter fm then
    match mapGet fm "tags" with
    | some (JValue.arr ts) =>
        let entry : CollectionEntry :=
          { frontmatter := fmWithPaths fm, content := body, filePath := f.path }
        { st with
          collections := ts.foldl (fun cols tag => pushCollection cols tag entry) st.collections }
    | _ => st
  else st

/-- The sequential indexing pass of `build` (SiteBuilder.ts lines 93-95). -/
def indexFiles (st : State) (files : List SiteFile) : State :=
  files.foldl processFile st

/-- The per-file guard in `buildPages` (SiteBuilder.ts lines 196-203):
a thrown error is caught and `null` substituted for the page. -/
def guardedBuild (env : Env) (st : State) (f : SiteFile) : Option Page × State :=
  match buildPage env st f with
  | (Except.ok r, _, st2) => (r, st2)
  | (Except.error _, _, st2) => (none, st2)

/-- Execution of the bounded-concurrency fan-out under an explicit
completion schedule `order` (a permutation of the file indices): each
scheduled index runs `guardedBuild` on the shared state and stores its
outcome at its own position in the index-aligned results array, exactly as
`Promise.all(siteFiles.map(...))` does. Indices out of range are no-ops. -/
def runSched (env : Env) : State → List (Option Page) → List SiteFile → List Nat →
    List (Option Page) × State
  | st, results, _, [] => (results, st)
  | st, results, files, i :: rest =>
      match files[i]? with
      | none => runSched env st results files rest
      | some f =>
          let (r, st2) := guardedBuild env st f
          runSched env st2 (results.set i r) files rest

/-- `buildPages` (SiteBuilder.ts lines 191-208): run every file under the
limiter, then filter out the `null` outcomes, keeping the index-aligned
order of `Promise.all`. -/
def buildPages (env : Env) (st : State) (files : List SiteFile) (order : List Nat) :
    List Page × State :=
  let r := runSched env st (List.replicate files.length none) files order
  (r.fst.filterMap id, r.snd)

/-- One awaited phase of `build` (SiteBuilder.ts lines 79-105). -/
inductive Phase where
  | loadDataPh
  | loadIncludesPh
  | loadSiteFilesPh
  | hookBeforeBuildPh
  | processFilePh (i : Nat)
  | buildPagesPh
  | hookAfterBuildPh
deriving DecidableEq, Repr

/-- The phase order of `build` for `n` site files, transcribed from the
await sequence of the source: `loadData` (line 81), `loadIncludes` (84),
`loadSiteFiles` (87), the `beforeBuild` hook (line 90), then the
`processFile` loop (lines 93-95), then `buildPages` (line 98), then the
`afterBuild` hook (line 101). -/
def buildTrace (n : Nat) : List Phase :=
  [Phase.loadDataPh, Phase.loadIncludesPh, Phase.loadSiteFilesPh, Phase.hookBeforeBuildPh] ++
  (List.range n).map Phase.processFilePh ++
  [Phase.buildPagesPh, Phase.hookAfterBuildPh]

/-- One call issued by the body of `use` (SiteBuilder.ts lines 55-63):
the callee, whether the call returns a promise, and whether the source
awaits that promise. -/
structure UseCall where
  callee : String
  returnsPromise : Bool
  awaited : Bool
deriving DecidableEq, Repr

/-- Whether `use` is declared `async` in the source. It is a plain
synchronous method (`use(plugin) {`, line 55). -/
def useIsAsync : Bool := false

/-- The calls issued by `use(plugin)`, in source order: append to
`plugins` (line 56); when the plugin exposes `initialize`, dispatch the
`beforePluginInitialized` hook (line 59), call `initialize` (line 60) and
dispatch the `afterPluginInitialized` hook (line 61). `triggerHook` is
an `async` method, so both hook dispatches return promises; neither call
carries an `await`, and `initialize` is declared to return `void`. -/
def useCallSequence (hasInitialize : Bool) : List UseCall :=
  if hasInitialize then
    [ { callee := "plugins.push", returnsPromise := false, awaited := false }
    , { callee := "triggerHook beforePluginInitialized", returnsPromise := true, awaited := false }
    , { callee := "plugin.initialize", returnsPromise := false, awaited := false }
    , { callee := "triggerHook afterPluginInitialized", returnsPromise := true, awaited := false } ]
  else
    [ { callee := "plugins.push", returnsPromise := false, awaited := false } ]

/-- State of the bounded-concurrency limiter.

Modelled from the spec: the limiter itself is the `p-limit` dependency,
outside this repository; §5 of the spec describes it as FIFO admission
into a bounded pool — a submitted job starts immediately while fewer than
`n` jobs are active and is queued otherwise, and a completing job admits
the next queued job. -/
structure LimiterState where
  activeCount : Nat
  queueSize : Nat
deriving DecidableEq, Repr

/-- The limiter before any job is submitted. -/
def pLimitInit : LimiterState := { activeCount := 0, queueSize := 0 }

/-- Submitting a job: start it at once when below the limit, else queue. -/
def pLimitEnqueue (n : Nat) (s : LimiterState) : LimiterState :=
  if s.activeCount < n then
    { activeCount := s.activeCount + 1, queueSize := s.queueSize }
  else
    { activeCount := s.activeCount, queueSize := s.queueSize + 1 }

/-- A job completing: it leaves the pool and, when the queue is nonempty,
the next queued job is admitted. -/
def pLimitComplete (s : LimiterState) : LimiterState :=
  if s.queueSize > 0 then
    { activeCount := s.activeCount - 1 + 1, queueSize := s.queueSize - 1 }
  else
    { activeCount := s.activeCount - 1, queueSize := s.queueSize }

/-- Transitions of the limiter: a submission, or the completion of one of
the active jobs. -/
inductive PLimitStep (n : Nat) : LimiterState → LimiterState → Prop
  | enqueue (s : LimiterState) : PLimitStep n s (pLimitEnqueue n s)
  | complete (s : LimiterState) (h : 0 < s.activeCount) : PLimitStep n s (pLimitComplete s)

/-- The limiter states reachable from the initial state by any
interleaving of submissions and completions. -/
def PLimitReachable (n : Nat) (s : LimiterState) : Prop :=
  Relation.ReflTransGen (PLimitStep n) pLimitInit s

/-- `Config.build.concurrencyLimit` (config.ts). -/
def concurrencyLimitConfig : Nat := 5

/-- `Config.build.concurrencyLimit || 5` (SiteBuilder.ts line 192):
JS `||` falls back to 5 exactly when the configured value is falsy. -/
def effectiveLimit (cfg : Nat) : Nat := if cfg = 0 then 5 else cfg

/-- The entries of one collection (empty when the tag has no collection). -/
def entriesAt (cols : List (String × List CollectionEntry)) (tag : String) :
    List CollectionEntry :=
  (mapGet cols tag).getD []

/-- The entries of one collection of the builder state. -/
def colEntries (st : State) (tag : String) : List CollectionEntry :=
  entriesAt st.collections tag

/-- The clean permalink of a successful page outcome. -/
def cleanOf : Except String (Option Page) → Option String
  | Except.ok (some p) => some p.permalinkClean
  | _ => none

/-- Position of the first occurrence of a phase in a build trace. -/
def posOf (n : Nat) (p : Phase) : Nat :=
  (buildTrace n).findIdx (fun q => q == p)

end SiteBuilderModel

deriving instance DecidableEq for Except

namespace SiteBuilderModel

/-! ### Concrete fixtures

A pure identity template engine and markdown renderer (eta and markdown-it
leave a template with no template syntax and a markdown document with no
markdown syntax unchanged up to markup wrapping; the identity choice is one
concrete admissible collaborator), an engine that always throws, a fresh
builder state, and a handful of concrete site files. -/

def envId : Env :=
  { render := fun s _ => Except.ok s
    renderMarkdown := fun s => s
    draftBuild := false }

def envErr : Env :=
  { render := fun _ _ => Except.error "template error"
    renderMarkdown := fun s => s
    draftBuild := false }

def st0 : State := { collections := [], data := [], includes := [], cache := [] }

def fileA : SiteFile := { path := "a.md", raw := ([], "hello") }

def fileB : SiteFile := { path := "b.md", raw := ([], "hello") }

def fileDraft : SiteFile :=
  { path := "d.md"
    raw := ([("draft", JValue.bool true), ("tags", JValue.arr ["blog"])], "draft body") }

def fileEmptyPermalink : SiteFile :=
  { path := "p.md", raw := ([("permalink", JValue.str "")], "x") }

/-! ### C1 — cache idempotence under byte-identical content -/

/-- C1, counterexample: two files with byte-identical raw content (hence
the same content hash) but different paths produce different Page objects
— the path flows into `filePath` and the default filesystem permalink —
so the computed Pages are not determined by the content hash alone and
last-write-wins under that hash loses one of the two distinct Pages. -/
theorem buildPage_not_determined_by_content_cx :
    fileA.raw = fileB.raw ∧
    (buildPage envId st0 fileA).1 ≠ (buildPage envId st0 fileB).1 := by
  constructor
  · rfl
  · decide

/-- C1, amended: the page build is deterministic in the file path, the raw
content and the builder state: two invocations of `buildPage` that agree
on all three compute identical results (in particular identical Pages), so
last-write-wins insertion is safe only among builds of the same path with
the same content and observed state. -/
theorem buildPage_deterministic (env : Env) (st st₂ : State) (f g : SiteFile)
    (hst : st = st₂) (hp : f.path = g.path) (hr : f.raw = g.raw) :
    buildPage env st f = buildPage env st₂ g := by
  cases f with
  | mk fp fr =>
      cases g with
      | mk gp gr =>
          simp only at hp hr
          subst hp
          subst hr
          subst hst
          rfl

/-- C1, witness for the amended theorem at a concrete input. -/
theorem buildPage_deterministic_witness :
    buildPage envId st0 fileA = buildPage envId st0 { path := "a.md", raw := ([], "hello") } :=
  buildPage_deterministic envId st0 st0 fileA { path := "a.md", raw := ([], "hello") }
    rfl rfl rfl

/-! ### C4 — plugin registration in `use` -/

/-- C4, counterexample: it is not the case that every promise-returning
call issued by `use` on a plugin exposing `initialize` is awaited — both
`triggerHook` dispatches return promises and neither is awaited, so the
hook and initialize invocations are not awaited to completion before `use`
returns. -/
theorem use_calls_not_awaited_cx :
    ((useCallSequence true).all fun c => !c.returnsPromise || c.awaited) = false := by
  decide

/-- C4, amended: for a plugin exposing `initialize`, `use` appends the
plugin and then issues the `beforePluginInitialized` hook dispatch, the
`initialize` call and the `afterPluginInitialized` hook dispatch, in that
order; but `use` is a synchronous method and none of these calls is
awaited — it returns without waiting for the hook promises. -/
theorem use_call_order :
    (useCallSequence true).map UseCall.callee =
      ["plugins.push", "triggerHook beforePluginInitialized",
       "plugin.initialize", "triggerHook afterPluginInitialized"] ∧
    useIsAsync = false ∧
    ((useCallSequence true).all fun c => !c.awaited) = true ∧
    (useCallSequence false).map UseCall.callee = ["plugins.push"] := by
  decide

/-! ### C6 — cache hit short-circuit -/

/-- C6: when the content hash of a file already has a cache entry,
`buildPage` returns the cached Page immediately: no plugin hook fires, no
validation or rendering step runs (the event trace is empty), and the
builder state is untouched. -/
theorem buildPage_cache_hit (env : Env) (st : State) (f : SiteFile) (p : Page)
    (h : mapGet st.cache f.raw = some p) :
    buildPage env st f = (Except.ok (some p), [], st) := by
  unfold buildPage
  rw [h]

def pageCached : Page :=
  { filePath := "a.md", frontmatter := [], content := "hello", layout := none,
    output := "hello", permalinkClean := "/", permalinkFilesystem := "/a.html",
    permalinkAlias := none }

def stCached : State :=
  { collections := [], data := [], includes := [], cache := [(fileA.raw, pageCached)] }

/-- C6, witness at a concrete cached state. -/
theorem buildPage_cache_hit_witness :
    mapGet stCached.cache fileB.raw = some pageCached ∧
    buildPage envId stCached fileB = (Except.ok (some pageCached), [], stCached) :=
  ⟨rfl, buildPage_cache_hit envId stCached fileB pageCached rfl⟩

/-! ### C8 — concurrency bound of the limiter -/

/-- One limiter transition preserves the bound: admission is guarded by
`activeCount < n`, and a completion trades one active job for at most one
queued job. -/
theorem pLimitStep_bound {n : Nat} {a b : LimiterState}
    (hs : PLimitStep n a b) (ha : a.activeCount ≤ n) : b.activeCount ≤ n := by
  cases hs with
  | enqueue =>
      unfold pLimitEnqueue
      split
      · next hlt => exact hlt
      · exact ha
  | complete h =>
      unfold pLimitComplete
      split
      · show a.activeCount - 1 + 1 ≤ n
        omega
      · show a.activeCount - 1 ≤ n
        omega

/-- C8: in every state of the bounded-concurrency limiter reachable from
the initial state by any interleaving of submissions and completions, the
number of simultaneously active jobs never exceeds the limit `n`. -/
theorem pLimit_active_bounded (n : Nat) (s : LimiterState)
    (h : PLimitReachable n s) : s.activeCount ≤ n := by
  induction h with
  | refl => exact Nat.zero_le n
  | tail _ hstep ih => exact pLimitStep_bound hstep ih

/-- C8, witness: with the default limit (`concurrencyLimit || 5 = 5`), the
state after two submissions is reachable and respects the bound. -/
theorem pLimit_active_bounded_witness :
    ({ activeCount := 2, queueSize := 0 } : LimiterState).activeCount ≤
      effectiveLimit concurrencyLimitConfig :=
  pLimit_active_bounded (effectiveLimit concurrencyLimitConfig) _
    (Relation.ReflTransGen.tail
      (Relation.ReflTransGen.single (PLimitStep.enqueue pLimitInit))
      (PLimitStep.enqueue { activeCount := 1, queueSize := 0 }))

/-! ### C2 — phase order of `build` -/

/-- The build trace with the two appends reassociated. -/
theorem buildTrace_assoc (n : Nat) : buildTrace n =
    [Phase.loadDataPh, Phase.loadIncludesPh, Phase.loadSiteFilesPh, Phase.hookBeforeBuildPh] ++
    ((List.range n).map Phase.processFilePh ++
      [Phase.buildPagesPh, Phase.hookAfterBuildPh]) := by
  unfold buildTrace
  rw [List.append_assoc]

/-- C2, counterexample: in a build of one site file, the `beforeBuild`
hook phase occurs and the indexing phase occurs, but the indexing phase
does not precede the hook — the source triggers `beforeBuild` (line 90)
before the `processFile` loop (lines 93-95), so the content-indexing pass
does not complete before the `beforeBuild` hook is triggered. -/
theorem build_index_before_hook_cx :
    Phase.processFilePh 0 ∈ buildTrace 1 ∧
    Phase.hookBeforeBuildPh ∈ buildTrace 1 ∧
    ¬ (posOf 1 (Phase.processFilePh 0) < posOf 1 Phase.hookBeforeBuildPh) := by
  decide

/-- C2, amended: in every run of `build`, the `beforeBuild` plugin hook
completes before the content-indexing pass starts, the full indexing pass
completes before any page building starts, and hence `beforeBuild` also
completes before any `buildPage` starts: in the phase trace the hook is at
position 3, the indexing of file `i` at position `i + 4`, and the
page-building fan-out at position `n + 4`. -/
theorem build_phase_order (n i : Nat) (h : i < n) :
    (buildTrace n)[3]? = some Phase.hookBeforeBuildPh ∧
    (buildTrace n)[i + 4]? = some (Phase.processFilePh i) ∧
    (buildTrace n)[n + 4]? = some Phase.buildPagesPh ∧
    3 < i + 4 ∧ i + 4 < n + 4 := by
  refine ⟨?_, ?_, ?_, by omega, by omega⟩
  · rw [buildTrace_assoc, List.getElem?_append_left (by simp)]
    rfl
  · rw [buildTrace_assoc, List.getElem?_append_right (by simp)]
    simp only [List.length_cons, List.length_nil]
    rw [show i + 4 - 4 = i by omega]
    rw [List.getElem?_append_left (by simpa using h)]
    simp [List.getElem?_range h]
  · rw [buildTrace_assoc, List.getElem?_append_right (by simp)]
    simp only [List.length_cons, List.length_nil]
    rw [show n + 4 - 4 = n by omega]
    rw [List.getElem?_append_right (by simp)]
    simp

/-- C2, witness for the amended theorem at a concrete trace. -/
theorem build_phase_order_witness :
    (buildTrace 2)[3]? = some Phase.hookBeforeBuildPh ∧
    (buildTrace 2)[1 + 4]? = some (Phase.processFilePh 1) ∧
    (buildTrace 2)[2 + 4]? = some Phase.buildPagesPh ∧
    3 < 1 + 4 ∧ 1 + 4 < 2 + 4 :=
  build_phase_order 2 1 (by decide)

/-! ### C5 — permalink derivation -/

/-- C5, counterexample: a built page whose frontmatter sets `permalink`
to the empty string (a valid string under the schema) gets the default
`clean = "/"`, not its rendered permalink (which renders to the empty
string): the source tests `data.permalink` for JS truthiness, and the
empty string is falsy. -/
theorem permalink_empty_string_cx :
    mapGet fileEmptyPermalink.raw.fst "permalink" = some (JValue.str "") ∧
    validateFrontmatter fileEmptyPermalink.raw.fst = true ∧
    cleanOf (buildPage envId st0 fileEmptyPermalink).1 = some "/" ∧
    envId.render ""
      { fields := [], includes := [], collections := [], data := [], content := none } =
      Except.ok "" ∧
    some "/" ≠ some ("" : String) := by
  exact ⟨rfl, rfl, rfl, rfl, by decide⟩

/-- C5, amended: permalink derivation is driven by the merged render
context handed to `generatePermalinkOutputs` (the page frontmatter, under
a layout merged with the unvalidated layout frontmatter) and by JS
truthiness: when the context has no truthy `permalink` value the result
is `clean = "/"` and `filesystem = "/<name>.html"` with the
extension-stripped file name; when the context has a truthy `permalink`,
the value is handed to the template engine — a string renders against the
context to produce `clean`, with `filesystem` being `clean` with a
trailing slash ensured followed by `index.html`, while a truthy
non-string value (or a failing render) makes the engine throw, and that
error propagates out of the permalink step so the page build fails;
`alias` is null unless the context has a truthy `alias`, in which case
it is rendered the same way (rendered string, or propagated throw). -/
theorem generatePermalinkOutputs_spec (env : Env) (path : String)
    (data : ContentData) (al : Option String)
    (ha : renderAlias env data = Except.ok al) :
    (truthyField data.fields "permalink" = none →
      generatePermalinkOutputs env path data =
        Except.ok
          { permalinkClean := "/"
            permalinkFilesystem := "/" ++ basenameNoExt path ++ ".html"
            permalinkAlias := al }) ∧
    (∀ v c, truthyField data.fields "permalink" = some v →
      renderValue env v data = Except.ok c →
      generatePermalinkOutputs env path data =
        Except.ok
          { permalinkClean := c
            permalinkFilesystem :=
              (if lastCharIs '/' c then c else c ++ "/") ++ "index.html"
            permalinkAlias := al }) ∧
    (∀ v e, truthyField data.fields "permalink" = some v →
      renderValue env v data = Except.error e →
      generatePermalinkOutputs env path data = Except.error e) := by
  refine ⟨?_, ?_, ?_⟩
  · intro hp
    unfold generatePermalinkOutputs
    rw [ha, hp]
  · intro v c hp hc
    unfold generatePermalinkOutputs
    rw [ha, hp]
    dsimp only
    rw [hc]
  · intro v e hp he
    unfold generatePermalinkOutputs
    rw [ha, hp]
    dsimp only
    rw [he]

def dataBlog : ContentData :=
  { fields := [("permalink", JValue.str "/blog/post/")]
    includes := [], collections := [], data := [], content := none }

def dataBoolPermalink : ContentData :=
  { fields := [("permalink", JValue.bool true)]
    includes := [], collections := [], data := [], content := none }

/-- C5, witness: the spec example — permalink `/blog/post/` yields
`clean = "/blog/post/"` and `filesystem = "/blog/post/index.html"` —
and a truthy non-string permalink (as a layout can inject) makes the
permalink step throw. -/
theorem generatePermalinkOutputs_spec_witness :
    generatePermalinkOutputs envId "b.md" dataBlog =
      Except.ok
        { permalinkClean := "/blog/post/"
          permalinkFilesystem := "/blog/post/index.html"
          permalinkAlias := none } ∧
    generatePermalinkOutputs envId "b.md" dataBoolPermalink =
      Except.error "renderString: template is not a string" :=
  ⟨(generatePermalinkOutputs_spec envId "b.md" dataBlog none rfl).2.1
      (JValue.str "/blog/post/") "/blog/post/" rfl rfl,
   (generatePermalinkOutputs_spec envId "b.md" dataBoolPermalink none rfl).2.2
      (JValue.bool true) "renderString: template is not a string" rfl rfl⟩

/-! ### C10 — skipped files never enter the cache -/

/-- In any build that is not a cache hit, the validation step runs (the
validation event is in the trace). -/
theorem validation_in_trace (env : Env) (st : State) (f : SiteFile)
    (h : mapGet st.cache f.raw = none) :
    BuildEvent.validationEv ∈ (buildPage env st f).2.1 := by
  unfold buildPage
  rw [h]
  simp only [finishPage]
  repeat' split
  all_goals simp [List.mem_append]

/-- C10: when a file whose content hash is not yet cached terminates early
— its frontmatter fails validation, or it is draft-flagged while the build
excludes drafts — `buildPage` returns no page and leaves the builder
state (in particular the cache) untouched, so a later occurrence of the
same content is not a cache hit and is re-validated in full. -/
theorem buildPage_skip_no_cache (env : Env) (st : State) (f : SiteFile)
    (hc : mapGet st.cache f.raw = none)
    (hskip : validateFrontmatter f.raw.fst = false ∨
      (jvTruthyOpt (mapGet f.raw.fst "draft") = true ∧ env.draftBuild = false)) :
    (buildPage env st f).1 = Except.ok none ∧
    (buildPage env st f).2.2 = st ∧
    ∀ g : SiteFile, g.raw = f.raw →
      BuildEvent.validationEv ∈ (buildPage env (buildPage env st f).2.2 g).2.1 := by
  have hmain : buildPage env st f =
      (Except.ok none, [BuildEvent.hookEv "beforeBuildPage", BuildEvent.validationEv], st) := by
    unfold buildPage
    rw [hc]
    rcases hskip with hv | ⟨hd, hb⟩
    · simp [hv]
    · by_cases hv : validateFrontmatter f.raw.fst
      · simp [hv, hd, hb]
      · simp [hv]
  refine ⟨by rw [hmain], by rw [hmain], ?_⟩
  intro g hg
  rw [hmain]
  exact validation_in_trace env st g (by rw [hg]; exact hc)

/-- C10, witness: a concrete draft file with uncached content is skipped,
the cache stays empty, and rebuilding the same content re-validates. -/
theorem buildPage_skip_no_cache_witness :
    (buildPage envId st0 fileDraft).1 = Except.ok none ∧
    (buildPage envId st0 fileDraft).2.2 = st0 ∧
    BuildEvent.validationEv ∈
      (buildPage envId (buildPage envId st0 fileDraft).2.2 fileDraft).2.1 := by
  have h := buildPage_skip_no_cache envId st0 fileDraft rfl (Or.inr ⟨rfl, rfl⟩)
  exact ⟨h.1, h.2.1, h.2.2 fileDraft rfl⟩

/-! ### C3 — collection indexing -/

theorem mapGet_mapSet_self {κ α : Type} [DecidableEq κ] (m : List (κ × α)) (k : κ) (v : α) :
    mapGet (mapSet m k v) k = some v := by
  induction m with
  | nil => simp [mapGet, mapSet]
  | cons kv rest ih =>
      obtain ⟨k1, v1⟩ := kv
      by_cases h : k1 = k
      · subst h
        simp [mapGet, mapSet]
      · simp [mapGet, mapSet, h, ih]

theorem mapGet_mapSet_ne {κ α : Type} [DecidableEq κ] (m : List (κ × α)) (k t : κ) (v : α)
    (h : ¬ k = t) : mapGet (mapSet m k v) t = mapGet m t := by
  induction m with
  | nil => simp [mapGet, mapSet, h]
  | cons kv rest ih =>
      obtain ⟨k1, v1⟩ := kv
      by_cases h1 : k1 = k
      · subst h1
        simp [mapGet, mapSet, h]
      · by_cases h2 : k1 = t
        · subst h2
          simp [mapGet, mapSet, Ne.symm h]
        · simp [mapGet, mapSet, h1, h2, ih]

theorem mapGet_append {κ α : Type} [DecidableEq κ] (m₁ m₂ : List (κ × α)) (t : κ) :
    mapGet (m₁ ++ m₂) t =
      match mapGet m₁ t with
      | some v => some v
      | none => mapGet m₂ t := by
  induction m₁ with
  | nil => simp [mapGet]
  | cons kv rest ih =>
      obtain ⟨k1, v1⟩ := kv
      by_cases h1 : k1 = t <;> simp [mapGet, h1, ih]

/-- Effect of `pushCollection` on the entries of every tag: the pushed
entry is appended for its tag, other tags are untouched. -/
theorem entriesAt_pushCollection (cols : List (String × List CollectionEntry))
    (tag t : String) (e : CollectionEntry) :
    entriesAt (pushCollection cols tag e) t =
      if t = tag then entriesAt cols tag ++ [e] else entriesAt cols t := by
  unfold pushCollection entriesAt
  cases h : mapGet cols tag with
  | some entries =>
      by_cases ht : t = tag
      · subst ht
        rw [mapGet_mapSet_self, h]
        simp
      · rw [mapGet_mapSet_ne _ tag t _ (fun hh => ht hh.symm)]
        simp [ht]
  | none =>
      rw [mapGet_append]
      by_cases ht : t = tag
      · subst ht
        rw [h]
        simp [mapGet]
      · cases h2 : mapGet cols t <;> simp [mapGet, ht, Ne.symm ht, h2]

/-- Membership in the entries of the fold of `pushCollection` over a tag
list: preserved entries. -/
theorem mem_foldPush_mono (ts : List String) (cols : List (String × List CollectionEntry))
    (e x : CollectionEntry) (t : String) (hx : x ∈ entriesAt cols t) :
    x ∈ entriesAt (ts.foldl (fun c tg => pushCollection c tg e) cols) t := by
  induction ts generalizing cols with
  | nil => simpa using hx
  | cons tg rest ih =>
      rw [List.foldl_cons]
      apply ih
      rw [entriesAt_pushCollection]
      by_cases ht : t = tg
      · simp only [ht, if_pos rfl]
        subst ht
        exact List.mem_append_left _ hx
      · simpa [ht] using hx

/-- Membership in the entries of the fold of `pushCollection`: the pushed
entry lands in the collection of every tag of the list. -/
theorem mem_foldPush_self (ts : List String) (cols : List (String × List CollectionEntry))
    (e : CollectionEntry) (tag : String) (h : tag ∈ ts) :
    e ∈ entriesAt (ts.foldl (fun c tg => pushCollection c tg e) cols) tag := by
  induction ts generalizing cols with
  | nil => cases h
  | cons tg rest ih =>
      rw [List.foldl_cons]
      rcases List.mem_cons.mp h with h1 | h2
      · subst h1
        apply mem_foldPush_mono
        rw [entriesAt_pushCollection]
        simp
      · exact ih _ h2

/-- Provenance through the fold of `pushCollection`: every entry was
already there or is the pushed entry under one of the tags. -/
theorem mem_foldPush_cases (ts : List String) (cols : List (String × List CollectionEntry))
    (e x : CollectionEntry) (t : String)
    (hx : x ∈ entriesAt (ts.foldl (fun c tg => pushCollection c tg e) cols) t) :
    x ∈ entriesAt cols t ∨ (x = e ∧ t ∈ ts) := by
  induction ts generalizing cols with
  | nil => exact Or.inl (by simpa using hx)
  | cons tg rest ih =>
      rw [List.foldl_cons] at hx
      rcases ih (pushCollection cols tg e) hx with h1 | h2
      · rw [entriesAt_pushCollection] at h1
        by_cases ht : t = tg
        · rw [if_pos ht] at h1
          rcases List.mem_append.mp h1 with ha | hb
          · subst ht
            exact Or.inl ha
          · exact Or.inr ⟨by simpa using hb, by simp [ht]⟩
        · rw [if_neg ht] at h1
          exact Or.inl h1
      · exact Or.inr ⟨h2.1, List.mem_cons_of_mem _ h2.2⟩

/-- `processFile` preserves existing collection entries. -/
theorem mem_processFile_mono (st : State) (f : SiteFile) (x : CollectionEntry) (t : String)
    (hx : x ∈ entriesAt st.collections t) :
    x ∈ entriesAt (processFile st f).collections t := by
  unfold processFile
  by_cases hv : validateFrontmatter f.raw.fst
  · simp only [hv, if_true]
    cases hmg : mapGet f.raw.fst "tags" with
    | none => exact hx
    | some v =>
        cases v with
        | arr ts => exact mem_foldPush_mono ts _ _ x t hx
        | str s => exact hx
        | bool b => exact hx
        | num n => exact hx
        | null => exact hx
  · simp only [hv, if_false]
    exact hx

/-- `processFile` indexes a validated file under every one of its tags. -/
theorem mem_processFile_adds (st : State) (f : SiteFile) (tag : String)
    (hv : validateFrontmatter f.raw.fst = true) (ht : tag ∈ tagsOf f.raw.fst) :
    mkEntry f ∈ entriesAt (processFile st f).collections tag := by
  unfold processFile
  simp only [hv, if_true]
  unfold tagsOf at ht
  cases hmg : mapGet f.raw.fst "tags" with
  | none =>
      rw [hmg] at ht
      simp at ht
  | some v =>
      cases v with
      | arr ts =>
          rw [hmg] at ht
          exact mem_foldPush_self ts st.collections (mkEntry f) tag ht
      | str s => rw [hmg] at ht; simp at ht
      | bool b => rw [hmg] at ht; simp at ht
      | num n => rw [hmg] at ht; simp at ht
      | null => rw [hmg] at ht; simp at ht

/-- Provenance through `processFile`: every collection entry was already
there, or comes from this file after it passed validation, under one of
its tags. -/
theorem mem_processFile_cases (st : State) (f : SiteFile) (x : CollectionEntry) (t : String)
    (hx : x ∈ entriesAt (processFile st f).collections t) :
    x ∈ entriesAt st.collections t ∨
      (validateFrontmatter f.raw.fst = true ∧ x = mkEntry f ∧ t ∈ tagsOf f.raw.fst) := by
  unfold processFile at hx
  by_cases hv : validateFrontmatter f.raw.fst
  · simp only [hv, if_true] at hx
    cases hmg : mapGet f.raw.fst "tags" with
    | none =>
        rw [hmg] at hx
        exact Or.inl hx
    | some v =>
        cases v with
        | arr ts =>
            rw [hmg] at hx
            rcases mem_foldPush_cases ts st.collections (mkEntry f) x t hx with h1 | h2
            · exact Or.inl h1
            · exact Or.inr ⟨hv, h2.1, by unfold tagsOf; rw [hmg]; exact h2.2⟩
        | str s => rw [hmg] at hx; exact Or.inl hx
        | bool b => rw [hmg] at hx; exact Or.inl hx
        | num n => rw [hmg] at hx; exact Or.inl hx
        | null => rw [hmg] at hx; exact Or.inl hx
  · simp only [hv, if_false] at hx
    exact Or.inl hx

/-- `indexFiles` preserves existing collection entries. -/
theorem mem_indexFiles_mono (files : List SiteFile) (st : State) (x : CollectionEntry)
    (t : String) (hx : x ∈ entriesAt st.collections t) :
    x ∈ entriesAt (indexFiles st files).collections t := by
  induction files generalizing st with
  | nil => simpa [indexFiles] using hx
  | cons g rest ih =>
      unfold indexFiles
      rw [List.foldl_cons]
      exact ih (processFile st g) (mem_processFile_mono st g x t hx)

/-- `indexFiles` indexes every validated file of the pass under every one
of its tags. -/
theorem mem_indexFiles_adds (files : List SiteFile) (st : State) (f : SiteFile) (tag : String)
    (hf : f ∈ files) (hv : validateFrontmatter f.raw.fst = true)
    (ht : tag ∈ tagsOf f.raw.fst) :
    mkEntry f ∈ entriesAt (indexFiles st files).collections tag := by
  induction files generalizing st with
  | nil => cases hf
  | cons g rest ih =>
      unfold indexFiles
      rw [List.foldl_cons]
      rcases List.mem_cons.mp hf with h1 | h2
      · subst h1
        exact mem_indexFiles_mono rest _ _ tag (mem_processFile_adds st f tag hv ht)
      · exact ih _ h2

/-- Provenance through `indexFiles`: every collection entry was in the
initial state or comes from a validated file of the pass. -/
theorem mem_indexFiles_cases (files : List SiteFile) (st : State) (x : CollectionEntry)
    (t : String) (hx : x ∈ entriesAt (indexFiles st files).collections t) :
    x ∈ entriesAt st.collections t ∨
      ∃ f, f ∈ files ∧ validateFrontmatter f.raw.fst = true ∧
        x = mkEntry f ∧ t ∈ tagsOf f.raw.fst := by
  induction files generalizing st with
  | nil => exact Or.inl (by simpa [indexFiles] using hx)
  | cons g rest ih =>
      unfold indexFiles at hx
      rw [List.foldl_cons] at hx
      rcases ih (processFile st g) hx with h1 | h2
      · rcases mem_processFile_cases st g x t h1 with ha | hb
        · exact Or.inl ha
        · exact Or.inr ⟨g, List.mem_cons_self g rest, hb⟩
      · obtain ⟨f, hf, rest2⟩ := h2
        exact Or.inr ⟨f, List.mem_cons_of_mem _ hf, rest2⟩

/-- C3, counterexample: a draft-flagged file that passes validation does
contribute collection entries even when the build excludes drafts — the
indexing pass never consults the draft flag or the drafts switch. -/
theorem indexing_draft_included_cx :
    jvTruthyOpt (mapGet fileDraft.raw.fst "draft") = true ∧
    envId.draftBuild = false ∧
    mkEntry fileDraft ∈ colEntries (indexFiles st0 [fileDraft]) "blog" := by
  refine ⟨rfl, rfl, ?_⟩
  decide

/-- C3, amended: after the indexing pass, for every content file that
passes frontmatter validation and for every tag in its tags list, the
collection named by that tag contains the `{frontmatter, content,
filePath}` entry of that file; and every entry of every collection comes
from a file of the pass that passed validation — files failing validation
contribute nothing. Draft-flagged files, however, do contribute: the
indexing pass does not consult the draft flag. -/
theorem indexing_collections_spec (files : List SiteFile) (st : State)
    (hempty : st.collections = []) :
    (∀ f, f ∈ files → validateFrontmatter f.raw.fst = true →
      ∀ tag, tag ∈ tagsOf f.raw.fst →
        mkEntry f ∈ colEntries (indexFiles st files) tag) ∧
    (∀ t x, x ∈ colEntries (indexFiles st files) t →
      ∃ f, f ∈ files ∧ validateFrontmatter f.raw.fst = true ∧
        x = mkEntry f ∧ t ∈ tagsOf f.raw.fst) := by
  constructor
  · intro f hf hv tag ht
    exact mem_indexFiles_adds files st f tag hf hv ht
  · intro t x hx
    rcases mem_indexFiles_cases files st x t hx with h1 | h2
    · rw [hempty] at h1
      simp [entriesAt, mapGet] at h1
    · exact h2

/-- C3, witness: the draft file carries tag `blog`; after indexing it from
a fresh state, the `blog` collection contains its entry. -/
theorem indexing_collections_spec_witness :
    mkEntry fileDraft ∈ colEntries (indexFiles st0 [fileDraft]) "blog" :=
  (indexing_collections_spec [fileDraft] st0 rfl).1 fileDraft
    (List.mem_singleton.mpr rfl) rfl "blog" (by decide)

/-! ### C7 — per-file failure isolation -/

/-- C7: every per-file build is independently guarded — when `buildPage`
throws, the guard in `buildPages` catches the error and substitutes no
page for that file; and the batch never fails: every page produced by any
file of the run is still in the returned list. -/
theorem buildPages_isolates_failures :
    (∀ (env : Env) (s : State) (f : SiteFile) (e : String),
      (buildPage env s f).1 = Except.error e → (guardedBuild env s f).1 = none) ∧
    (∀ (env : Env) (st : State) (files : List SiteFile) (order : List Nat) (q : Page),
      some q ∈ (runSched env st (List.replicate files.length none) files order).1 →
      q ∈ (buildPages env st files order).1) := by
  constructor
  · intro env s f e h
    unfold guardedBuild
    rcases hb : buildPage env s f with ⟨r, evs, st2⟩
    rw [hb] at h
    cases r with
    | error e2 => rfl
    | ok v => simp at h
  · intro env st files order q hq
    unfold buildPages
    exact List.mem_filterMap.mpr ⟨some q, hq, rfl⟩

/-- C7, witness: a template engine that throws makes the guard return no
page for that file, while a file that builds fine elsewhere in the batch
is still returned. -/
theorem buildPages_isolates_failures_witness :
    (guardedBuild envErr st0 fileA).1 = none ∧
    pageCached ∈ (buildPages envId stCached [fileA] [0]).1 :=
  ⟨buildPages_isolates_failures.1 envErr st0 fileA "template error" rfl,
   buildPages_isolates_failures.2 envId stCached [fileA] [0] pageCached (by decide)⟩

/-! ### C9 — output order of `buildPages` -/

theorem filterMap_id_cons_some {α : Type} (a : α) (t : List (Option α)) :
    List.filterMap id (some a :: t) = a :: List.filterMap id t :=
  List.filterMap_cons_some rfl

theorem filterMap_id_cons_none {α : Type} (t : List (Option α)) :
    List.filterMap id (none :: t) = List.filterMap id t :=
  List.filterMap_cons_none rfl

/-- A present value of an option list survives `filterMap id` at some
position. -/
theorem getElem_filterMap_id {α : Type} :
    ∀ (l : List (Option α)) (j : Nat) (q : α),
      l[j]? = some (some q) → ∃ k : Nat, (l.filterMap id)[k]? = some q := by
  intro l
  induction l with
  | nil =>
      intro j q h
      simp at h
  | cons x t ih =>
      intro j q h
      cases j with
      | zero =>
          rw [List.getElem?_cons_zero] at h
          injection h with h2
          subst h2
          exact ⟨0, by rw [filterMap_id_cons_some, List.getElem?_cons_zero]⟩
      | succ j =>
          rw [List.getElem?_cons_succ] at h
          obtain ⟨k, hk⟩ := ih j q h
          cases x with
          | none => exact ⟨k, by rw [filterMap_id_cons_none]; exact hk⟩
          | some a =>
              exact ⟨k + 1, by rw [filterMap_id_cons_some, List.getElem?_cons_succ]; exact hk⟩

/-- `filterMap id` preserves the relative order of the present values of
an option list. -/
theorem filterMap_id_order {α : Type} :
    ∀ (l : List (Option α)) (i j : Nat) (p q : α),
      i < j → l[i]? = some (some p) → l[j]? = some (some q) →
      ∃ ki kj : Nat, ki < kj ∧ (l.filterMap id)[ki]? = some p ∧ (l.filterMap id)[kj]? = some q := by
  intro l
  induction l with
  | nil =>
      intro i j p q hij hi hj
      simp at hi
  | cons x t ih =>
      intro i j p q hij hi hj
      cases i with
      | zero =>
          rw [List.getElem?_cons_zero] at hi
          injection hi with hi2
          subst hi2
          cases j with
          | zero => omega
          | succ j =>
              rw [List.getElem?_cons_succ] at hj
              obtain ⟨k, hk⟩ := getElem_filterMap_id t j q hj
              refine ⟨0, k + 1, Nat.succ_pos k, ?_, ?_⟩
              · rw [filterMap_id_cons_some, List.getElem?_cons_zero]
              · rw [filterMap_id_cons_some, List.getElem?_cons_succ]
                exact hk
      | succ i =>
          cases j with
          | zero => omega
          | succ j =>
              rw [List.getElem?_cons_succ] at hi hj
              obtain ⟨ki, kj, hkk, hpi, hqj⟩ := ih i j p q (by omega) hi hj
              cases x with
              | none =>
                  refine ⟨ki, kj, hkk, ?_, ?_⟩
                  · rw [filterMap_id_cons_none]
                    exact hpi
                  · rw [filterMap_id_cons_none]
                    exact hqj
              | some a =>
                  refine ⟨ki + 1, kj + 1, by omega, ?_, ?_⟩
                  · rw [filterMap_id_cons_some, List.getElem?_cons_succ]
                    exact hpi
                  · rw [filterMap_id_cons_some, List.getElem?_cons_succ]
                    exact hqj

/-- C9: the page list returned by `buildPages` preserves the order of the
input site-file list, whatever the completion order of the scheduled
builds: when the index-aligned results of the run hold a page for file `i`
and a page for file `j` with `i < j`, the returned list contains them at
positions `ki < kj`. -/
theorem buildPages_preserve_order (env : Env) (st : State) (files : List SiteFile)
    (order : List Nat) (i j : Nat) (p q : Page) (hij : i < j)
    (hi : (runSched env st (List.replicate files.length none) files order).1[i]? =
      some (some p))
    (hj : (runSched env st (List.replicate files.length none) files order).1[j]? =
      some (some q)) :
    ∃ ki kj : Nat, ki < kj ∧ (buildPages env st files order).1[ki]? = some p ∧
      (buildPages env st files order).1[kj]? = some q := by
  have h := filterMap_id_order
    (runSched env st (List.replicate files.length none) files order).1 i j p q hij hi hj
  simpa [buildPages] using h

def fileC : SiteFile := { path := "c.md", raw := ([], "see") }

def pageC : Page :=
  { filePath := "c.md", frontmatter := [], content := "see", layout := none,
    output := "see", permalinkClean := "/", permalinkFilesystem := "/c.html",
    permalinkAlias := none }

/-- C9, witness: two files run under the reversed completion order still
come back in input order. -/
theorem buildPages_preserve_order_witness :
    ∃ ki kj : Nat, ki < kj ∧
      (buildPages envId st0 [fileA, fileC] [1, 0]).1[ki]? = some pageCached ∧
      (buildPages envId st0 [fileA, fileC] [1, 0]).1[kj]? = some pageC :=
  buildPages_preserve_order envId st0 [fileA, fileC] [1, 0] 0 1 pageCached pageC
    (by decide) (by decide) (by decide)

end SiteBuilderModel
